import Mathlib

/-!
Shallow embedding of the RoSeal/RBDb multi-target browser-extension build
pipeline (scripts/build/utils.ts, scripts/build.ts, scripts/build/constants.ts,
scripts/dev.ts), with theorems settling the frozen claims about it.

JavaScript objects are modelled as Lean structures whose optional fields are
`Option`; a field equal to `none` models a key that is absent (or `undefined`,
which `JSON.stringify` drops).  Code paths that throw a `TypeError` at runtime
are modelled by functions returning `Option`/`none`.
-/

namespace RBDb

/-- `Target` from scripts/build/constants.ts. -/
inductive Target where
  | chrome
  | firefox
  | edge
  | safari
  deriving Repr, DecidableEq

/-- `TargetBase` from scripts/build/constants.ts. -/
inductive TargetBase where
  | chromium
  | firefox
  | apple
  deriving Repr, DecidableEq

/-- `getTargetBaseFromTarget` from scripts/build/utils.ts. -/
def getTargetBaseFromTarget : Target → TargetBase
  | .chrome => .chromium
  | .edge => .chromium
  | .firefox => .firefox
  | .safari => .apple

/-- `DevServersAvailable` from scripts/build/utils.ts. -/
structure DevServersAvailable where
  IS_DEV_API_ACCESSIBLE : Bool := false
  IS_DEV_WWW_ACCESSIBLE : Bool := false
  IS_DEV_WS_ACCESSIBLE : Bool := false
  deriving Repr, DecidableEq

/-- One entry of `web_accessible_resources` in the source (MV3) shape:
`\x7b resources: string[], matches?: string[] \x7d`. -/
structure WARGroup where
  resources : List String := []
  matchPatterns : Option (List String) := none
  deriving Repr, DecidableEq

/-- The dynamic value stored under the `web_accessible_resources` key.  The
source manifest holds a list of groups; the Gecko branch of
`transformManifest` replaces it with a flat list of resource strings
(`flatMap((r) => r.resources)`), whose elements can be `undefined` (`none`)
when a flat list is fed back in. -/
inductive WARValue where
  | groups (gs : List WARGroup)
  | flat (rs : List (Option String))
  deriving Repr, DecidableEq

/-- The `background` entry: MV3 authoring shape has `service_worker`; the
Gecko branch replaces it with `\x7b scripts: [service_worker] \x7d`. -/
structure Background where
  service_worker : Option String := none
  scripts : Option (List (Option String)) := none
  deriving Repr, DecidableEq

/-- `BrowserSpecificSettings` from scripts/build/constants.ts. -/
structure BSSCore where
  id : Option String := none
  beta_id : Option String := none
  key : Option String := none
  beta_update_url : Option String := none
  strict_min_version : Option String := none
  strict_max_version : Option String := none
  deriving Repr, DecidableEq

/-- The `firefox` entry of `browser_specific_settings`: the core settings
plus an optional `android` sub-block. -/
structure FirefoxBSS where
  core : BSSCore := {}
  android : Option BSSCore := none
  deriving Repr, DecidableEq

/-- The `gecko` entry that the Gecko branch of `transformManifest`
synthesizes: the spread of the firefox entry plus `id`, `update_url`,
with `android` removed. -/
structure GeckoBSS where
  core : BSSCore := {}
  update_url : Option String := none
  android : Option BSSCore := none
  deriving Repr, DecidableEq

/-- The whole `browser_specific_settings` object.  The source manifest uses
the `chrome`/`firefox`/`safari` keys; the transformed output uses
`safari` (apple) or `gecko`/`gecko_android` (firefox). -/
structure BSSBlock where
  chrome : Option BSSCore := none
  firefox : Option FirefoxBSS := none
  safari : Option BSSCore := none
  gecko : Option GeckoBSS := none
  gecko_android : Option BSSCore := none
  deriving Repr, DecidableEq

/-- `Manifest` from scripts/build/constants.ts (the fields read or written by
`transformManifest`).  `action`, `browser_action` and `options_ui` are opaque
payloads the transformer only moves or deletes wholesale; they are modelled
as opaque string tokens. -/
structure Manifest where
  schema : Option String := none
  name : String := ""
  short_name : Option String := none
  manifest_version : Nat := 3
  version : Option String := none
  store_version : Option String := none
  version_name : Option String := none
  beta : Option Bool := none
  permissions : Option (List String) := none
  host_permissions : Option (List String) := none
  optional_permissions : Option (List String) := none
  optional_host_permissions : Option (List String) := none
  web_accessible_resources : Option WARValue := none
  background : Option Background := none
  action : Option String := none
  browser_action : Option String := none
  options_ui : Option String := none
  incognito : Option String := none
  key : Option String := none
  minimum_chrome_version : Option String := none
  browser_specific_settings : Option BSSBlock := none
  deriving Repr, DecidableEq

/-- Replace the first occurrence of `pat` in `s` with `repl`, on character
lists. -/
def replaceFirstChars (pat repl : List Char) : List Char → List Char
  | [] => []
  | c :: rest =>
    if pat.isPrefixOf (c :: rest) then repl ++ (c :: rest).drop pat.length
    else c :: replaceFirstChars pat repl rest

/-- JavaScript `String.prototype.replace` with a string pattern: replaces the
first occurrence of `pat` only (unlike `replaceAll`).  An empty pattern
matches at the start of the string. -/
def replaceFirst (s pat repl : String) : String :=
  if pat.isEmpty then repl ++ s
  else String.mk (replaceFirstChars pat.toList repl.toList s.toList)

/-- `String.prototype.endsWith`. -/
def strEndsWith (s suffix : String) : Bool :=
  suffix.toList.isSuffixOf s.toList

/-- `String.prototype.startsWith`. -/
def strStartsWith (s pre : String) : Bool :=
  pre.toList.isPrefixOf s.toList

/-- JavaScript `setKey.replaceAll(".", "_")`: the pattern is a single
character, so the replacement is a character map. -/
def dotsToUnderscores (s : String) : String :=
  String.mk (s.toList.map fun c => if c = '.' then '_' else c)

/-- `TransformManifestArgs` from scripts/build/utils.ts. -/
structure TransformManifestArgs where
  manifest : Manifest
  targetBase : TargetBase
  isDev : Bool := false
  devServers : Option DevServersAvailable := none

/-- The production `web_accessible_resources` filtering at the top of
`transformManifest`: drop `.map` resources, drop groups left empty, drop the
key when no group remains.  Iterating `data.resources.filter` over a flat
list of strings throws a `TypeError` (modelled as `none`) unless the list is
empty, in which case the loop body never runs and the subsequent
`filter`/length check clears the key. -/
def applyProdWARFilter (isDev : Bool) (m : Manifest) : Option Manifest :=
  match m.web_accessible_resources, isDev with
  | none, _ => some m
  | some _, true => some m
  | some (.flat xs), false =>
      if xs.isEmpty then some { m with web_accessible_resources := none } else none
  | some (.groups gs), false =>
      let gs1 := gs.map fun g =>
        { g with resources := g.resources.filter fun r => !(strEndsWith r ".map") }
      let gs2 := gs1.filter fun g => g.resources.length > 0
      some { m with web_accessible_resources :=
        if gs2.length = 0 then none else some (.groups gs2) }

/-- The Gecko branch's `web_accessible_resources?.flatMap((r) => r.resources)`:
groups flatten to their resource strings; on an already-flat list each string
element yields `undefined` (`.resources` of a string), while an `undefined`
element makes the property access itself throw (`none`). -/
def flattenWAR : WARValue → Option WARValue
  | .groups gs => some (.flat ((gs.flatMap fun g => g.resources).map some))
  | .flat xs =>
      if xs.all Option.isSome then some (.flat (xs.map fun _ => none)) else none

/-- `transformManifest` lines 139-142: `if (devServers && isDev)` push the
localhost host-permission wildcard. -/
def tmLocalhost (devServers : Option DevServersAvailable) (isDev : Bool)
    (m : Manifest) : Manifest :=
  if devServers.isSome ∧ isDev then
    { m with host_permissions := some ((m.host_permissions.getD []) ++ ["*://localhost/*"]) }
  else m

/-- `transformManifest` lines 144-147: `if (manifest.beta && !isDev)` beta
display names. -/
def tmBetaName (isDev : Bool) (m : Manifest) : Manifest :=
  if m.beta = some true ∧ !isDev then
    { m with short_name := some "RoSeal BETA", name := "RoSeal BETA" }
  else m

/-- `transformManifest` lines 149-188: the per-family spread.  For targets
other than the Gecko family it folds `store_version` into `version`,
substitutes the version placeholder in `version_name` (JavaScript coerces an
`undefined` replacement value to the string "undefined") and drops
`options_ui`; for the Gecko family it forces manifest version 2, merges the
host permissions into the permission lists, remaps `action`, `background`
and flattens `web_accessible_resources`. -/
def tmFamilySpread (targetBase : TargetBase) (m4 : Manifest) : Option Manifest :=
  if targetBase ≠ .firefox then
    some { m4 with
      options_ui := none
      store_version := none
      version := m4.store_version
      version_name := m4.version_name.map fun vn =>
        replaceFirst vn "__manifest_version__" (m4.version.getD "undefined") }
  else
    (match m4.web_accessible_resources with
      | none => some none
      | some w => (flattenWAR w).map some).map fun war =>
    { m4 with
      store_version := none
      version := m4.store_version
      manifest_version := 2
      version_name := none
      host_permissions := none
      optional_host_permissions := none
      optional_permissions :=
        some ((m4.optional_host_permissions.getD []) ++
          (m4.optional_permissions.getD []))
      permissions :=
        some ((m4.host_permissions.getD []) ++ (m4.permissions.getD []))
      action := none
      browser_action := m4.action
      incognito := some "spanning"
      background := m4.background.map fun (bg : Background) =>
        { service_worker := none, scripts := some [bg.service_worker] }
      web_accessible_resources := war }

/-- `transformManifest` lines 190-237: `if (manifest.browser_specific_settings)`
per-family settings fan-out. -/
def tmBSS (targetBase : TargetBase) (isDev : Bool) (m5 : Manifest) : Manifest :=
  match m5.browser_specific_settings with
  | none => m5
  | some bss =>
    match targetBase with
    | .apple =>
        { m5 with browser_specific_settings := some { safari := bss.safari } }
    | .chromium =>
        let m5k := if isDev then { m5 with key := bss.chrome.bind (·.key) } else m5
        { m5k with
          minimum_chrome_version := bss.chrome.bind (·.strict_min_version)
          browser_specific_settings := none }
    | .firefox =>
        let idSel : Option String :=
          if !isDev then
            if m5.beta = some true then bss.firefox.bind (·.core.beta_id)
            else bss.firefox.bind (·.core.id)
          else none
        -- NOTE: the source reads `beta_id` for the update URL as well
        let updSel : Option String :=
          if !isDev ∧ m5.beta = some true then bss.firefox.bind (·.core.beta_id)
          else none
        let mkGecko : FirefoxBSS → GeckoBSS := fun ff =>
          { core := { ff.core with id := idSel, beta_id := none, beta_update_url := none }
            update_url := updSel
            android := none }
        let newBss : BSSBlock :=
          { gecko := bss.firefox.map mkGecko
            gecko_android := bss.firefox.bind (·.android) }
        { m5 with browser_specific_settings := some newBss }

/-- `transformManifest` lines 239-244: `if (targetBase === "apple")` platform
restrictions. -/
def tmApple (targetBase : TargetBase) (m6 : Manifest) : Manifest :=
  if targetBase = .apple then
    { m6 with
      incognito := none
      optional_permissions :=
        m6.optional_permissions.map (·.filter fun item => item ≠ "cookies") }
  else m6

/-- `transformManifest` from scripts/build/utils.ts, lines 118-249, as the
composition of its sections in source order.  Returns `none` exactly when
the JavaScript function would throw a `TypeError` (only possible when a
Gecko-flattened resource list is fed back in). -/
def transformManifest (args : TransformManifestArgs) : Option Manifest := do
  -- structuredClone, then `manifest.$schema = undefined`
  -- lines 127-137: production web_accessible_resources clean-up
  let m2 ← applyProdWARFilter args.isDev { args.manifest with schema := none }
  let m4 := tmBetaName args.isDev (tmLocalhost args.devServers args.isDev m2)
  let m5 ← tmFamilySpread args.targetBase m4
  -- lines 246-248: `manifest.beta = undefined`, then return
  pure { tmApple args.targetBase (tmBSS args.targetBase args.isDev m5) with beta := none }

/-! ## Locale extraction (`handleI18NNamespace` from scripts/build/utils.ts) -/

mutual
/-- A JSONC value inside a locale tree: a string leaf, a string array (the
payload of a `$types` directive), or a nested object whose entries are kept
in insertion order (`I18nEntries`). -/
inductive I18nValue where
  | str (s : String)
  | strs (xs : List String)
  | node (entries : I18nEntries)
  deriving Repr
inductive I18nEntries where
  | nil
  | cons (key : String) (value : I18nValue) (rest : I18nEntries)
  deriving Repr
end

/-- JavaScript property access `obj[k]` on an `I18nEntries` object. -/
def lookupEntry : I18nEntries → String → Option I18nValue
  | .nil, _ => none
  | .cons k v rest, key => if k = key then some v else lookupEntry rest key

/-- One entry of the `transform` accumulator:
`\x7b $context?: string; message?: string \x7d`. -/
structure I18nEntry where
  context : Option String := none
  message : Option String := none
  deriving Repr, DecidableEq

/-- The `transform` accumulator, a JavaScript object modelled as an
insertion-ordered association list. -/
abbrev I18nMap := List (String × I18nEntry)

/-- JavaScript `obj[k] = e`: replace in place when the key exists, append
otherwise. -/
def i18nSet (t : I18nMap) (k : String) (e : I18nEntry) : I18nMap :=
  if (t.lookup k).isSome then t.map fun kv => if kv.1 = k then (k, e) else kv
  else t ++ [(k, e)]

/-- JavaScript `obj[k] ??= \x7b\x7d; f(obj[k])`: update the existing entry in
place, or append a freshly-defaulted one. -/
def i18nUpdate (t : I18nMap) (k : String) (f : I18nEntry → I18nEntry) : I18nMap :=
  if (t.lookup k).isSome then t.map fun kv => if kv.1 = k then (k, f kv.2) else kv
  else t ++ [(k, f {})]

/-- `value.$types` of a node. -/
def nodeTypes (entries : I18nEntries) : Option (List String) :=
  match lookupEntry entries "$types" with
  | some (.strs xs) => some xs
  | _ => none

/-- `value.$message` of a node. -/
def nodeMessage (entries : I18nEntries) : Option String :=
  match lookupEntry entries "$message" with
  | some (.str s) => some s
  | _ => none

/-- `value.$context` of a node. -/
def nodeContext (entries : I18nEntries) : Option String :=
  match lookupEntry entries "$context" with
  | some (.str s) => some s
  | _ => none

/-- The key rewrite of scripts/build/utils.ts line 381:
`types?.includes("manifest") && types.length === 1`. -/
def manifestOnly (types : Option (List String)) : Bool :=
  match types with
  | some ts => ts.contains "manifest" && ts.length == 1
  | none => false

/-- The skip gate of scripts/build/utils.ts lines 405-411:
`types && !(value.$types ?? ["main"]).some((t) => types.includes(t)) &&
(!!value.$types || !_transform)`.  `isTop` models `!_transform` (no
accumulator was passed, i.e. this is the outermost call). -/
def skipNode (types : Option (List String)) (vtypes : Option (List String))
    (isTop : Bool) : Bool :=
  match types with
  | none => false
  | some ts => !(vtypes.getD ["main"]).any (fun ty => ts.contains ty) &&
      (vtypes.isSome || isTop)

/-- `setKey` computation of scripts/build/utils.ts lines 379-383: extend the
dotted namespace, then rewrite dots to underscores for a manifest-only
extraction. -/
def makeSetKey (types : Option (List String)) (ns : Option String)
    (key : String) : String :=
  let sk0 := match ns with
    | some n => n ++ "." ++ key
    | none => key
  if manifestOnly types then dotsToUnderscores sk0 else sk0

/-- The `for (const key in data)` loop body applied to a string array value
(`typeof [] === "object"`): `for..in` enumerates the indices as string keys
with string leaf values, so each non-empty element is recorded at
`setKey.<index>`.  Nested `$`-checks and objects cannot occur. -/
def handleStrsEntries (types : Option (List String)) (ns : String)
    (xs : List String) (t : I18nMap) : I18nMap :=
  (xs.enum.foldl (fun acc (p : Nat × String) =>
    let sk := makeSetKey types (some ns) (toString p.1)
    if p.2.isEmpty then acc else i18nSet acc sk { message := some p.2 }) t)

/-- The `$message` handling of scripts/build/utils.ts lines 413-421 for one
node, given its computed `setKey`. -/
def applyNodeMessage (ic : Bool) (key sk : String) (cc : Option String)
    (msgCtx : Option String) (msg? : Option String) (t : I18nMap) : I18nMap :=
  match msg? with
  | none => t
  | some msg =>
    if msg.length ≠ 0 then
      let t0 := i18nUpdate t sk id
      let t0 :=
        if ic then
          let ctx := match msgCtx with
            | some c => if c.isEmpty then key else c
            | none => key
          let pre := match cc with
            | some c => c ++ "; "
            | none => ""
          i18nUpdate t0 sk fun e => { e with context := some (pre ++ ctx) }
        else t0
      i18nUpdate t0 sk fun e => { e with message := some msg }
    else t

/-- The `nextContext` computation of scripts/build/utils.ts lines 423-426. -/
def nextContextFor (ic : Bool) (cc : Option String) (ctx : Option String)
    (key : String) : Option String :=
  if ic then
    let pre := match cc with
      | some c => c ++ "; "
      | none => ""
    some (pre ++ (ctx.getD key))
  else none

/-- The loop of `handleI18NNamespace` (scripts/build/utils.ts lines 377-430),
iterating the entries of one object with the accumulator threaded through;
recursion into a nested object passes the accumulator (so `isTop := false`
there). -/
def handleNSGo (types : Option (List String)) (ic : Bool) :
    I18nEntries → Option String → Bool → Option String → I18nMap → I18nMap
  | .nil, _, _, _, t => t
  | .cons key (.str s) rest, ns, isTop, cc, t =>
    let sk := makeSetKey types ns key
    let t1 : I18nMap :=
      if strStartsWith key "$" then t
      else if s.isEmpty then t
      else i18nSet t sk { message := some s }
    handleNSGo types ic rest ns isTop cc t1
  | .cons key (.strs xs) rest, ns, isTop, cc, t =>
    let sk := makeSetKey types ns key
    let t1 : I18nMap :=
      if strStartsWith key "$" then t
      else if skipNode types none isTop then t
      else handleStrsEntries types sk xs t
    handleNSGo types ic rest ns isTop cc t1
  | .cons key (.node entries) rest, ns, isTop, cc, t =>
    let sk := makeSetKey types ns key
    let t1 : I18nMap :=
      if strStartsWith key "$" then t
      else if skipNode types (nodeTypes entries) isTop then t
      else
        let ta := applyNodeMessage ic key sk cc (nodeContext entries)
          (nodeMessage entries) t
        handleNSGo types ic entries (some sk) false
          (nextContextFor ic cc (nodeContext entries) key) ta
    handleNSGo types ic rest ns isTop cc t1

/-- `handleI18NNamespace` from scripts/build/utils.ts, lines 361-433.
`tArg = none` models the outermost call, where no `_transform` accumulator
is passed. -/
def handleI18NNamespace (data : I18nEntries)
    (types : Option (List String)) (ns : Option String)
    (tArg : Option I18nMap) (ic : Bool) (cc : Option String) : I18nMap :=
  handleNSGo types ic data ns tArg.isNone cc (tArg.getD [])

/-! ## ICU placeholder-argument collection (`getI18nTypesFile`) -/

/-- Modelled from the spec: the ICU message parser is the external
`@formatjs/icu-messageformat-parser` package, not part of this repository.
Per the spec, a message is a sequence of literal text runs and placeholder
elements; this models the plain-substitution fragment (`Hello \x7bname\x7d`),
which is all the claims exercise — plural/select branch recursion is not
modelled.  `literal` is the type-0 element the source filters out. -/
inductive MFElement where
  | literal (value : String)
  | argument (value : String)
  deriving Repr, DecidableEq

/-- Modelled from the spec: scanning parse of the plain-argument fragment of
ICU message syntax — text outside braces is a literal run, text inside a
brace pair is a placeholder argument name.  `inArg` says whether the scanner
is inside a brace pair; `acc` accumulates the current run in reverse. -/
def parseMessageModel : List Char → Bool → List Char → List MFElement
  | [], false, acc => if acc.isEmpty then [] else [.literal (String.mk acc.reverse)]
  | [], true, acc => [.argument (String.mk acc.reverse)]
  | c :: rest, false, acc =>
    if c = '\x7b' then
      (if acc.isEmpty then [] else [.literal (String.mk acc.reverse)]) ++
        parseMessageModel rest true []
    else parseMessageModel rest false (c :: acc)
  | c :: rest, true, acc =>
    if c = '\x7d' then
      .argument (String.mk acc.reverse) :: parseMessageModel rest false []
    else parseMessageModel rest true (c :: acc)

/-- The per-key argument collection of `getI18nTypesFile`
(scripts/build/utils.ts lines 509-530): parse the message, keep elements that
are not literal text (`item.type !== 0 && "value" in item`), then de-duplicate
argument names in first-occurrence order via `handledKeys`. -/
def collectMessageArgs (msg : String) : List String :=
  let parsed := parseMessageModel msg.toList false []
  let args := parsed.filter fun e =>
    match e with
    | .literal _ => false
    | .argument _ => true
  let values := args.filterMap fun e =>
    match e with
    | .literal _ => none
    | .argument v => some v
  values.foldl (fun handled v => if handled.contains v then handled else handled ++ [v]) []

/-! ## DNR rule generation (`writeDNRRules` from scripts/build.ts) -/

/-- One user-agent override profile, from `getUserAgentOverrides`
(scripts/build/constants.ts). -/
structure UserAgentOverride where
  userAgent : String
  platformType : String
  deviceType : String
  deriving Repr, DecidableEq

/-- `getUserAgentOverrides` from scripts/build/constants.ts: the fixed list of
five simulated device profiles. -/
def getUserAgentOverrides (robloxVersion : String) : List UserAgentOverride :=
  [ { userAgent := "Roblox/WinInet RobloxApp/" ++ robloxVersion ++
        " (GlobalDist; RobloxDirectDownload)"
      platformType := "Desktop", deviceType := "Desktop" }
  , { userAgent := "Roblox/XboxOne ROBLOX Xbox App 1.0.0"
      platformType := "Console", deviceType := "Console" }
  , { userAgent := "(0MB; 0x0; 0x0; 0x0; ; 0) ROBLOX Android Tablet RobloxApp/" ++
        robloxVersion ++ " (GlobalDist; GooglePlayStore)"
      platformType := "Tablet", deviceType := "Tablet" }
  , { userAgent := "(0MB; 0x0; 0x0; 0x0; ; 0) ROBLOX Android Phone RobloxApp/" ++
        robloxVersion ++ " (GlobalDist; GooglePlayStore)"
      platformType := "Phone", deviceType := "Phone" }
  , { userAgent := "(0MB; 0x0; 0x0; 0x0; oculus Oculus Questseacliff; 0) " ++
        "ROBLOX Android VR OculusQuest3Store RobloxApp/" ++ robloxVersion ++
        " (GlobalDist; OculusQuest3Store)"
      platformType := "VR", deviceType := "VR" } ]

/-- Constants from scripts/build/constants.ts and scripts/build/utils.ts. -/
def ROSEAL_TRACKING_HEADER_NAME : String := "_rosealRequest"

def ROSEAL_OVERRIDE_PLATFORM_TYPE_HEADER_NAME : String := "_rosealPlatformType"

def CONTENT_SECURITY_POLICY_HEADER_NAME : String := "content-security-policy"

def ROBLOX_DOMAIN : String := "\x7bservice\x7d.roblox.com"

def TWEMOJI_EMOJI_BASE_URL : String :=
  "https://cdn.jsdelivr.net/gh/jdecked/twemoji@16.0.1/assets/"

def FLUENTUI_EMOJI_BASE_URL : String :=
  "https://cdn.jsdelivr.net/gh/RoSeal-Extension/fluentui-emoji@latest/export/"

/-- `ROBLOX_DOMAIN.replace(/\x7bservice\x7d\.?/, "")`: the regex consumes the
placeholder and the following dot when present. -/
def stripServiceDot (s : String) : String :=
  if (s.splitOn "\x7bservice\x7d.").length > 1 then
    replaceFirst s "\x7bservice\x7d." ""
  else replaceFirst s "\x7bservice\x7d" ""

/-- One `modifyHeaders` header operation. -/
structure HeaderOp where
  header : String
  operation : String
  value : String
  deriving Repr, DecidableEq

/-- A DNR rule action. -/
structure DNRAction where
  type : String
  requestHeaders : Option (List HeaderOp) := none
  responseHeaders : Option (List HeaderOp) := none
  deriving Repr, DecidableEq

/-- A DNR rule condition. -/
structure DNRCondition where
  urlFilter : String
  resourceTypes : List String
  deriving Repr, DecidableEq

/-- One declarativeNetRequest rule as emitted by `writeDNRRules`. -/
structure DNRRule where
  id : Nat
  priority : Nat
  action : DNRAction
  condition : DNRCondition
  deriving Repr, DecidableEq

/-- The rule array built by `writeDNRRules` (scripts/build.ts lines 203-294):
one user-agent override rule per simulated device profile (ids assigned by the
`idx++` counter), then the content-security-policy rewrite rule, then the
tracking-header append rule.  `startId` is the `STATIC_RULES_START_ID`
constant imported from src/ts/constants/dnrRules.ts (its numeric value lives
outside the build scripts; every claim about it holds for any value). -/
def writeDNRRulesArray (startId : Nat) (target version : String) (isDev : Bool)
    (robloxVersion cspPolicy : String) : List DNRRule :=
  let appendString :=
    "RoSealExtension (RoSeal/" ++ target ++ "/" ++ version ++ "/" ++
      (if isDev then "dev" else "prod") ++ ")"
  let userAgentOverrides := getUserAgentOverrides robloxVersion
  let step := fun (acc : List DNRRule × Nat) (item : UserAgentOverride) =>
    let uaOp : HeaderOp :=
      { header := "user-agent", operation := "set"
        value := item.userAgent ++ " " ++ appendString }
    let uaFilter := "||" ++ stripServiceDot ROBLOX_DOMAIN ++ "/*" ++
      ROSEAL_OVERRIDE_PLATFORM_TYPE_HEADER_NAME ++ "=" ++ item.platformType
    let rule : DNRRule :=
      { id := acc.2
        priority := 1
        action := { type := "modifyHeaders", requestHeaders := some [uaOp] }
        condition := { urlFilter := uaFilter, resourceTypes := ["xmlhttprequest"] } }
    (acc.1 ++ [rule], acc.2 + 1)
  let uaState := userAgentOverrides.foldl step ([], startId)
  let cspValue := replaceFirst cspPolicy "img-src \x27self\x27"
    ("img-src \x27self\x27 " ++ TWEMOJI_EMOJI_BASE_URL ++ " " ++ FLUENTUI_EMOJI_BASE_URL)
  let cspOp : HeaderOp :=
    { header := CONTENT_SECURITY_POLICY_HEADER_NAME, operation := "set", value := cspValue }
  let cspFilter := "||" ++ replaceFirst ROBLOX_DOMAIN "\x7bservice\x7d" "www" ++ "/*"
  let cspRule : DNRRule :=
    { id := uaState.2
      priority := 1
      action := { type := "modifyHeaders", responseHeaders := some [cspOp] }
      condition := { urlFilter := cspFilter, resourceTypes := ["main_frame", "sub_frame"] } }
  let trackOp : HeaderOp :=
    { header := "user-agent", operation := "append", value := appendString }
  let trackFilter := "||" ++ stripServiceDot ROBLOX_DOMAIN ++ "/*" ++
    ROSEAL_TRACKING_HEADER_NAME
  let trackingRule : DNRRule :=
    { id := uaState.2 + 1
      priority := 1
      action := { type := "modifyHeaders", requestHeaders := some [trackOp] }
      condition := { urlFilter := trackFilter, resourceTypes := ["xmlhttprequest"] } }
  uaState.1 ++ [cspRule, trackingRule]

/-- Classifies an emitted rule by its shape: a response-header rule is the
security-policy rule, an `append` request-header rule is the tracking rule,
and a `set` request-header rule is a user-agent override. -/
inductive RuleKind where
  | uaOverride
  | securityPolicy
  | tracking
  deriving Repr, DecidableEq

def ruleKind (r : DNRRule) : RuleKind :=
  if r.action.responseHeaders.isSome then .securityPolicy
  else
    match r.action.requestHeaders with
    | some (op :: _) => if op.operation = "append" then .tracking else .uaOverride
    | _ => .uaOverride

/-! ## Build orchestration (`build` from scripts/build.ts) -/

/-- The outcome of one settled build step, as reported by
`Promise.allSettled`. -/
inductive SettledResult where
  | fulfilled
  | rejected (reason : String)
  deriving Repr, DecidableEq

def SettledResult.isFulfilled : SettledResult → Bool
  | .fulfilled => true
  | .rejected _ => false

/-- The seven steps launched by `build` (scripts/build.ts lines 597-631), in
the order they are placed in the `tasks` array. -/
structure BuildSteps where
  buildJS : SettledResult
  writeManifest : SettledResult
  copyAssets : SettledResult
  writeDNRRules : SettledResult
  writeI18n : SettledResult
  writeHTMLFiles : SettledResult
  compileSCSS : SettledResult
  deriving Repr, DecidableEq

/-- The `tasks` array of `build`. -/
def buildTasks (s : BuildSteps) : List SettledResult :=
  [s.buildJS, s.writeManifest, s.copyAssets, s.writeDNRRules, s.writeI18n,
    s.writeHTMLFiles, s.compileSCSS]

/-- What one run of `build` did and returned. -/
structure BuildRun where
  settledOutcomes : List SettledResult
  safariConversionRan : Bool
  result : Except String Unit
  deriving Repr

/-- `build` from scripts/build.ts lines 575-641, after the seven launched
steps settle: `Promise.allSettled(tasks)` collects every outcome; if all are
fulfilled and the target base is apple, `convertToSafariExtension` runs;
if any step rejected, the function throws "Build failed with errors" and the
conversion is skipped. -/
def build (targetBase : TargetBase) (s : BuildSteps) : BuildRun :=
  let results := buildTasks s
  if results.all SettledResult.isFulfilled then
    { settledOutcomes := results
      safariConversionRan := targetBase = .apple
      result := .ok () }
  else
    { settledOutcomes := results
      safariConversionRan := false
      result := .error "Build failed with errors" }

/-! ## Dev server (`handleChange` from scripts/dev.ts) -/

/-- `JSON.stringify(\x7b type \x7d)`. -/
def jsonTypeMessage (t : String) : String :=
  "\x7b\x22type\x22:\x22" ++ t ++ "\x22\x7d"

/-- `handleChange` from scripts/dev.ts lines 94-109: the broadcast runs in a
`.then` continuation of the rebuild promise, so it happens only when the
rebuild fulfilled, and only when a notification `type` was supplied; it then
sends the serialized message to every connection in the open-connection set.
The result lists the `(connection, message)` sends performed. -/
def handleChange (rebuild : Except String Unit) (type? : Option String)
    (connections : List String) : List (String × String) :=
  match rebuild with
  | .error _ => []
  | .ok _ =>
    match type? with
    | none => []
    | some t => connections.map fun c => (c, jsonTypeMessage t)

/-! ## Step lemmas about `transformManifest` -/

/-- A successful production `web_accessible_resources` clean-up changes only
the `web_accessible_resources` field. -/
theorem applyProdWARFilter_shape (isDev : Bool) (m m2 : Manifest)
    (h : applyProdWARFilter isDev m = some m2) :
    m2 = { m with web_accessible_resources := m2.web_accessible_resources } := by
  cases m with
  | mk sch nm snm mv v sv vn b p hp op ohp war bg ac bac ou inc k mcv bss =>
    unfold applyProdWARFilter at h
    dsimp only at h
    cases war with
    | none => simp at h; subst h; rfl
    | some w =>
      cases isDev with
      | true => simp at h; subst h; rfl
      | false =>
        cases w with
        | flat xs =>
          by_cases hx : xs.isEmpty
          · simp [hx] at h; subst h; rfl
          · simp [hx] at h
        | groups gs => simp at h; subst h; rfl

/-- The localhost push as an unconditional record update. -/
theorem tmLocalhost_eq (ds : Option DevServersAvailable) (d : Bool) (m : Manifest) :
    tmLocalhost ds d m =
      { m with host_permissions :=
          if ds.isSome ∧ d then some ((m.host_permissions.getD []) ++ ["*://localhost/*"])
          else m.host_permissions } := by
  unfold tmLocalhost
  split
  next h => rfl
  next h => rfl

/-- The beta renaming as an unconditional record update. -/
theorem tmBetaName_eq (d : Bool) (m : Manifest) :
    tmBetaName d m =
      { m with
        short_name := if m.beta = some true ∧ !d then some "RoSeal BETA" else m.short_name
        name := if m.beta = some true ∧ !d then "RoSeal BETA" else m.name } := by
  unfold tmBetaName
  split
  next h => rfl
  next h => rfl

/-- What a successful Gecko-family spread does to every field but
`web_accessible_resources`. -/
theorem tmFamilySpread_firefox_shape (m4 out : Manifest)
    (h : tmFamilySpread .firefox m4 = some out) :
    out = { m4 with
      store_version := none
      version := m4.store_version
      manifest_version := 2
      version_name := none
      host_permissions := none
      optional_host_permissions := none
      optional_permissions :=
        some ((m4.optional_host_permissions.getD []) ++ (m4.optional_permissions.getD []))
      permissions := some ((m4.host_permissions.getD []) ++ (m4.permissions.getD []))
      action := none
      browser_action := m4.action
      incognito := some "spanning"
      background := m4.background.map fun (bg : Background) =>
        { service_worker := none, scripts := some [bg.service_worker] }
      web_accessible_resources := out.web_accessible_resources } := by
  unfold tmFamilySpread at h
  simp only [ne_eq, not_true_eq_false, if_false, reduceIte] at h
  cases hw : m4.web_accessible_resources with
  | none =>
    rw [hw] at h
    dsimp only at h
    simp at h
    subst h
    rfl
  | some w =>
    rw [hw] at h
    dsimp only at h
    cases hf : flattenWAR w with
    | none => rw [hf] at h; simp at h
    | some war2 =>
      rw [hf] at h
      simp at h
      subst h
      rfl

/-- Outside the Gecko family the spread never fails and is an explicit
record update. -/
theorem tmFamilySpread_nonfirefox (tb : TargetBase) (m4 : Manifest)
    (h : tb ≠ .firefox) :
    tmFamilySpread tb m4 = some { m4 with
      options_ui := none
      store_version := none
      version := m4.store_version
      version_name := m4.version_name.map fun vn =>
        replaceFirst vn "__manifest_version__" (m4.version.getD "undefined") } := by
  unfold tmFamilySpread
  rw [if_pos h]

/-- The settings fan-out is skipped when the block is absent. -/
theorem tmBSS_none (tb : TargetBase) (d : Bool) (m : Manifest)
    (h : m.browser_specific_settings = none) : tmBSS tb d m = m := by
  unfold tmBSS; rw [h]

/-- The settings fan-out only ever writes `key`, `minimum_chrome_version` and
`browser_specific_settings`. -/
theorem tmBSS_shape (tb : TargetBase) (d : Bool) (m : Manifest) :
    ∃ k mcv bss2, tmBSS tb d m =
      { m with
        key := k
        minimum_chrome_version := mcv
        browser_specific_settings := bss2 } := by
  unfold tmBSS
  cases hb : m.browser_specific_settings with
  | none => exact ⟨m.key, m.minimum_chrome_version, m.browser_specific_settings, rfl⟩
  | some bss =>
    cases tb with
    | apple => exact ⟨m.key, m.minimum_chrome_version, _, rfl⟩
    | chromium =>
      by_cases hd : d
      · exact ⟨bss.chrome.bind (·.key), bss.chrome.bind (·.strict_min_version), none,
          by simp [hd]⟩
      · exact ⟨m.key, bss.chrome.bind (·.strict_min_version), none, by simp [hd]⟩
    | firefox => exact ⟨m.key, m.minimum_chrome_version, _, rfl⟩

/-- The settings fan-out preserves the permission lists and the identity
fields of the manifest. -/
theorem tmBSS_preserves (tb : TargetBase) (d : Bool) (m : Manifest) :
    (tmBSS tb d m).permissions = m.permissions ∧
    (tmBSS tb d m).host_permissions = m.host_permissions ∧
    (tmBSS tb d m).optional_permissions = m.optional_permissions ∧
    (tmBSS tb d m).optional_host_permissions = m.optional_host_permissions ∧
    (tmBSS tb d m).manifest_version = m.manifest_version ∧
    (tmBSS tb d m).version = m.version ∧
    (tmBSS tb d m).beta = m.beta ∧
    (tmBSS tb d m).incognito = m.incognito := by
  unfold tmBSS
  cases hb : m.browser_specific_settings with
  | none => simp
  | some bss =>
    cases tb with
    | apple => simp
    | chromium => by_cases hd : d <;> simp [hd]
    | firefox => simp

/-- The Chromium-family settings fan-out, explicitly. -/
theorem tmBSS_chromium_eq (d : Bool) (m : Manifest) (b : BSSBlock)
    (hb : m.browser_specific_settings = some b) :
    tmBSS .chromium d m =
      { m with
        key := if d then b.chrome.bind (·.key) else m.key
        minimum_chrome_version := b.chrome.bind (·.strict_min_version)
        browser_specific_settings := none } := by
  unfold tmBSS
  rw [hb]
  dsimp only
  by_cases hd : d <;> simp [hd]

/-- The Apple-family restrictions do nothing for other families. -/
theorem tmApple_nonapple (tb : TargetBase) (m : Manifest) (h : tb ≠ .apple) :
    tmApple tb m = m := by
  unfold tmApple
  rw [if_neg h]

/-- Filtering a list twice with the same predicate equals filtering once. -/
theorem filterIdem {α : Type} (p : α → Bool) (l : List α) :
    (l.filter p).filter p = l.filter p := by
  induction l with
  | nil => rfl
  | cons a l ih => by_cases h : p a <;> simp [List.filter_cons, h, ih]

/-- The production `web_accessible_resources` clean-up is idempotent: a
manifest already carrying a cleaned-up resource list passes through
unchanged. -/
theorem applyProdWARFilter_post (m m2 m3 : Manifest)
    (h : applyProdWARFilter false m = some m2)
    (hw : m3.web_accessible_resources = m2.web_accessible_resources) :
    applyProdWARFilter false m3 = some m3 := by
  have hres : ∀ g : WARGroup,
      (fun g : WARGroup =>
        { g with resources := g.resources.filter fun r => !(strEndsWith r ".map") })
        ((fun g : WARGroup =>
          { g with resources := g.resources.filter fun r => !(strEndsWith r ".map") }) g) =
      (fun g : WARGroup =>
        { g with resources := g.resources.filter fun r => !(strEndsWith r ".map") }) g := by
    intro g
    simp [filterIdem]
  unfold applyProdWARFilter at h
  cases hmw : m.web_accessible_resources with
  | none =>
    rw [hmw] at h
    simp at h
    subst h
    unfold applyProdWARFilter
    rw [hw, hmw]
  | some w =>
    rw [hmw] at h
    cases w with
    | flat xs =>
      by_cases hx : xs.isEmpty
      · simp [hx] at h
        subst h
        unfold applyProdWARFilter
        rw [hw]
      · simp [hx] at h
    | groups gs =>
      simp only [Option.some.injEq] at h
      subst h
      unfold applyProdWARFilter
      rw [hw]
      dsimp only
      set f : WARGroup → WARGroup := fun g =>
        { g with resources := g.resources.filter fun r => !(strEndsWith r ".map") } with hf
      set q : WARGroup → Bool := fun g => decide (g.resources.length > 0) with hq
      by_cases hlen : ((gs.map f).filter q).length = 0
      · rw [if_pos hlen]
      · rw [if_neg hlen]
        dsimp only
        have hmapid : ((gs.map f).filter q).map f = (gs.map f).filter q := by
          have : ∀ g ∈ (gs.map f).filter q, f g = g := by
            intro g hg
            have hg2 := List.mem_filter.mp hg
            obtain ⟨g0, _, hg0⟩ := List.mem_map.mp hg2.1
            rw [← hg0]
            exact hres g0
          calc ((gs.map f).filter q).map f = ((gs.map f).filter q).map id := by
                exact List.map_congr_left this
            _ = (gs.map f).filter q := List.map_id _
        rw [hmapid, filterIdem]
        rw [if_neg hlen]
        have hw2 : m3.web_accessible_resources =
            some (WARValue.groups ((gs.map f).filter q)) := by
          rw [hw]
          dsimp only
          rw [if_neg hlen]
        rw [← hw2]

/-- What a successful Gecko-family transform does to the permission-related
fields, for every source manifest and build mode. -/
theorem transformManifest_firefox_fields (m : Manifest) (isDev : Bool)
    (ds : Option DevServersAvailable) (out : Manifest)
    (h : transformManifest
      { manifest := m, targetBase := .firefox, isDev := isDev, devServers := ds } = some out) :
    out.manifest_version = 2 ∧
    out.host_permissions = none ∧
    out.optional_host_permissions = none ∧
    out.permissions = some ((if ds.isSome ∧ isDev then
        m.host_permissions.getD [] ++ ["*://localhost/*"]
      else m.host_permissions.getD []) ++ m.permissions.getD []) ∧
    out.optional_permissions =
      some (m.optional_host_permissions.getD [] ++ m.optional_permissions.getD []) := by
  unfold transformManifest at h
  simp only [bind, Option.bind_eq_some, Option.pure_def, Option.some.injEq] at h
  obtain ⟨m2, hW, m5, hF, hOut⟩ := h
  have hm2 := applyProdWARFilter_shape _ _ _ hW
  have hm5 := tmFamilySpread_firefox_shape _ _ hF
  subst hOut
  have hpres := tmBSS_preserves .firefox isDev m5
  rw [tmApple_nonapple _ _ (by simp)]
  refine ⟨?_, ?_, ?_, ?_, ?_⟩
  all_goals
    simp only [hpres.1, hpres.2.1, hpres.2.2.1, hpres.2.2.2.1, hpres.2.2.2.2.1]
  all_goals rw [hm5]
  all_goals rw [tmBetaName_eq, tmLocalhost_eq, hm2]
  all_goals by_cases hc : ds.isSome ∧ isDev
  all_goals simp [hc]

/-- A transformed Chromium-family manifest in a production, dev-server-less
build is a fixed point of the transform whenever its folded-away fields are
already clear. -/
theorem transformManifest_chromium_fixpoint (out : Manifest)
    (h1 : out.schema = none) (h2 : out.beta = none) (h3 : out.store_version = none)
    (h4 : out.version = none) (h5 : out.version_name = none) (h6 : out.options_ui = none)
    (h7 : out.browser_specific_settings = none)
    (hW : applyProdWARFilter false out = some out) :
    transformManifest
      { manifest := out, targetBase := .chromium, isDev := false, devServers := none } =
      some out := by
  cases out with
  | mk sch nm snm mv v sv vn b p hp op ohp war bg ac bac ou inc k mcv bss =>
    dsimp only at h1 h2 h3 h4 h5 h6 h7
    subst h1 h2 h3 h4 h5 h6 h7
    unfold transformManifest
    dsimp only
    rw [hW]
    simp [tmLocalhost, tmBetaName, tmFamilySpread, tmBSS, tmApple]

/-! ## Concrete inputs used by examples, witnesses and counterexamples -/

/-- A reachability record with all three dev-server flags false (the
defaults). -/
def dsAllFalse : DevServersAvailable := {}

/-- The example source manifest of the spec's end-to-end scenario. -/
def c1SourceManifest : Manifest :=
  { name := "RoSeal", store_version := some "1.0.0",
    host_permissions := some ["*://example.com/*"], permissions := some ["storage"] }

/-- Its Gecko-family production transform. -/
def c1OutManifest : Manifest :=
  (transformManifest
    { manifest := c1SourceManifest, targetBase := .firefox, isDev := false,
      devServers := none }).getD {}

/-- Firefox per-family settings with distinct `beta_id` and
`beta_update_url`. -/
def c2FirefoxCore : BSSCore :=
  { id := some "roseal@roseal.live"
    beta_id := some "roseal-beta@roseal.live"
    beta_update_url := some "https://www.roseal.live/updates.json" }

/-- A beta-flagged source carrying those firefox settings. -/
def c2Manifest : Manifest :=
  { name := "RoSeal", store_version := some "1.0.0", beta := some true,
    browser_specific_settings := some { firefox := some { core := c2FirefoxCore } } }

/-- A plain source manifest for the C3 counterexample. -/
def c3CounterManifest : Manifest := { name := "RoSeal", store_version := some "1.0.0" }

/-- Its development Chromium transform under an all-false reachability
record. -/
def c3CounterOut : Manifest :=
  (transformManifest
    { manifest := c3CounterManifest, targetBase := .chromium, isDev := true,
      devServers := some dsAllFalse }).getD {}

/-- A source with one host permission, for the C3 witness. -/
def c3DevManifest : Manifest :=
  { name := "RoSeal", store_version := some "1.0.0",
    host_permissions := some ["*://www.roblox.com/*"] }

/-- Its development Chromium transform under an all-false reachability
record. -/
def c3DevOut : Manifest :=
  (transformManifest
    { manifest := c3DevManifest, targetBase := .chromium, isDev := true,
      devServers := some dsAllFalse }).getD {}

/-- The spec's example locale tree `\x7b"a": \x7b"b": "Hello \x7bname\x7d"\x7d\x7d`. -/
def c4Tree : I18nEntries :=
  .cons "a" (.node (.cons "b" (.str "Hello \x7bname\x7d") .nil)) .nil

/-- The same tree with the node tagged for manifest extraction. -/
def c4TreeTagged : I18nEntries :=
  .cons "a"
    (.node (.cons "$types" (.strs ["manifest"])
      (.cons "b" (.str "Hello \x7bname\x7d") .nil))) .nil

/-- A source with a `store_version`, on which idempotence fails. -/
def c8SourceManifest : Manifest := { name := "RoSeal", store_version := some "1.0.0" }

/-- Its first Chromium production transform. -/
def c8OnceManifest : Manifest :=
  (transformManifest
    { manifest := c8SourceManifest, targetBase := .chromium, isDev := false,
      devServers := none }).getD {}

/-- A source with no `store_version` and no `version_name`, in the restricted
idempotence domain. -/
def c8PlainManifest : Manifest := { name := "RoSeal", permissions := some ["storage"] }

/-- Its first Chromium production transform. -/
def c8PlainOut : Manifest :=
  (transformManifest
    { manifest := c8PlainManifest, targetBase := .chromium, isDev := false,
      devServers := none }).getD {}

/-- Chrome per-family settings with a signing key and minimum version. -/
def c9ChromeSettings : BSSCore :=
  { key := some "MIIBIjANBgkqh-KEYDATA", strict_min_version := some "121.0" }

/-- A settings block carrying those chrome settings. -/
def c9Block : BSSBlock := { chrome := some c9ChromeSettings }

/-- A source manifest carrying that settings block. -/
def c9Manifest : Manifest :=
  { name := "RoSeal", store_version := some "1.0.0",
    browser_specific_settings := some c9Block }

/-- Its development Chromium transform. -/
def c9DevOut : Manifest :=
  (transformManifest
    { manifest := c9Manifest, targetBase := .chromium, isDev := true,
      devServers := none }).getD {}

/-- Its production Chromium transform. -/
def c9ProdOut : Manifest :=
  (transformManifest
    { manifest := c9Manifest, targetBase := .chromium, isDev := false,
      devServers := none }).getD {}

/-- A source carrying both optional permission lists. -/
def c10Manifest : Manifest :=
  { name := "RoSeal", store_version := some "1.0.0",
    optional_host_permissions := some ["*://apis.roblox.com/*"],
    optional_permissions := some ["cookies", "downloads"] }

/-- Its Gecko-family production transform. -/
def c10Out : Manifest :=
  (transformManifest
    { manifest := c10Manifest, targetBase := .firefox, isDev := false,
      devServers := none }).getD {}

/-! ## Claim theorems -/

/-- C1: For every source manifest and every build mode, the Gecko-family
output of `transformManifest` has `manifest_version = 2`, no
`host_permissions` key, and a `permissions` list containing every entry of
the source's `host_permissions` and `permissions`; and the production build
of the example source (`host_permissions = ["*://example.com/*"]`,
`permissions = ["storage"]`) yields exactly the permissions
`["*://example.com/*", "storage"]` (hence the order-insensitive set
equality) and no `host_permissions` key. -/
theorem claim1_gecko_manifest_v2_and_permissions :
    (∀ (m : Manifest) (isDev : Bool) (ds : Option DevServersAvailable) (out : Manifest),
      transformManifest
        { manifest := m, targetBase := .firefox, isDev := isDev, devServers := ds } =
        some out →
      out.manifest_version = 2 ∧ out.host_permissions = none ∧
      ∀ p : String, (p ∈ m.host_permissions.getD [] ∨ p ∈ m.permissions.getD []) →
        p ∈ out.permissions.getD []) ∧
    ((transformManifest
        { manifest := c1SourceManifest, targetBase := .firefox, isDev := false,
          devServers := none }).map
      (fun o => (o.permissions, o.host_permissions, o.manifest_version)) =
      some (some ["*://example.com/*", "storage"], none, 2)) := by
  constructor
  · intro m isDev ds out h
    obtain ⟨hmv, hhost, _, hperm, _⟩ := transformManifest_firefox_fields m isDev ds out h
    refine ⟨hmv, hhost, ?_⟩
    intro p hp
    rw [hperm]
    rcases hp with hp | hp
    · by_cases hc : ds.isSome ∧ isDev <;> simp [hc, hp]
    · simp [hp]
  · decide

/-- C1 witness: the universal part applied to the example production build. -/
theorem claim1_witness :
    transformManifest
      { manifest := c1SourceManifest, targetBase := .firefox, isDev := false,
        devServers := none } = some c1OutManifest ∧
    c1OutManifest.manifest_version = 2 ∧ c1OutManifest.host_permissions = none ∧
    "*://example.com/*" ∈ c1OutManifest.permissions.getD [] := by
  have happ : transformManifest
      { manifest := c1SourceManifest, targetBase := .firefox, isDev := false,
        devServers := none } = some c1OutManifest := by decide
  have h := claim1_gecko_manifest_v2_and_permissions.1 c1SourceManifest false none
    c1OutManifest happ
  exact ⟨happ, h.1, h.2.1, h.2.2 _ (Or.inl (by decide))⟩

/-- C2: the code evaluated at a Gecko-family, beta-flagged, production input
whose firefox settings carry distinct `beta_id` and `beta_update_url`: the
synthesized `gecko.id` is the beta identifier as the claim says, but
`gecko.update_url` is ALSO the beta identifier (the source reads `beta_id`
for both, scripts/build/utils.ts line 213), not the settings'
`beta_update_url` — confirming the claim describes the intent and the code
diverges from it. -/
theorem claim2_beta_update_url_uses_beta_id :
    ((transformManifest
        { manifest := c2Manifest, targetBase := .firefox, isDev := false,
          devServers := none }).map
      (fun o => o.browser_specific_settings.map fun bb =>
        bb.gecko.map fun g => (g.core.id, g.update_url)) =
      some (some (some (some "roseal-beta@roseal.live", some "roseal-beta@roseal.live")))) ∧
    c2Manifest.browser_specific_settings.bind (fun bb =>
      bb.firefox.bind (·.core.beta_update_url)) =
      some "https://www.roseal.live/updates.json" := by
  constructor
  · decide
  · decide

/-- C3 counterexample: in a development build with a dev-server record whose
three reachability flags are all false (API unreachable), the localhost
wildcard is STILL appended — the code tests only the presence of the record,
refuting "no localhost wildcard is added when the record reports all dev
servers unreachable". -/
theorem claim3_counterexample :
    transformManifest
      { manifest := c3CounterManifest, targetBase := .chromium, isDev := true,
        devServers := some dsAllFalse } =
      some c3CounterOut ∧
    "*://localhost/*" ∈ c3CounterOut.host_permissions.getD [] := by
  constructor
  · decide
  · decide

/-- C3 (amended): in a development build, `transformManifest` appends the
localhost wildcard if and only if a dev-server reachability record is
supplied at all — irrespective of the record's flags; with no record the
host permissions pass through unchanged. -/
theorem claim3_localhost_wildcard (m : Manifest) (ds : Option DevServersAvailable)
    (out : Manifest)
    (h : transformManifest
      { manifest := m, targetBase := .chromium, isDev := true, devServers := ds } =
      some out) :
    out.host_permissions =
      if ds.isSome then some ((m.host_permissions.getD []) ++ ["*://localhost/*"])
      else m.host_permissions := by
  unfold transformManifest at h
  simp only [bind, Option.bind_eq_some, Option.pure_def, Option.some.injEq] at h
  obtain ⟨m2, hW, m5, hF, hOut⟩ := h
  have hm2 := applyProdWARFilter_shape _ _ _ hW
  rw [tmFamilySpread_nonfirefox _ _ (by simp), Option.some.injEq] at hF
  have hpres := tmBSS_preserves .chromium true m5
  subst hOut
  rw [tmApple_nonapple _ _ (by simp)]
  show (tmBSS TargetBase.chromium true m5).host_permissions = _
  rw [hpres.2.1, ← hF, tmBetaName_eq, tmLocalhost_eq, hm2]
  by_cases hc : ds.isSome <;> simp [hc]

/-- C3 witness: the amended theorem applied to a concrete dev build carrying
an all-false reachability record. -/
theorem claim3_witness :
    c3DevOut.host_permissions = some ["*://www.roblox.com/*", "*://localhost/*"] := by
  have h := claim3_localhost_wildcard c3DevManifest (some dsAllFalse) c3DevOut
    (by decide)
  exact h.trans (by decide)

/-- C4 counterexample: extracting the untagged tree
`a -> b -> "Hello \x7bname\x7d"` under the manifest-only profile yields no
`"a_b"` key at all — the node's default `$types` is `["main"]` and untagged
top-level nodes are excluded from a manifest extraction, refuting the claim
that this tree extracts to exactly the key `"a_b"`. -/
theorem claim4_counterexample :
    handleI18NNamespace c4Tree (some ["manifest"]) none none false none = [] := by
  decide

/-- C4 (amended): under profile `main` the tree extracts to exactly the key
`"a.b"` and the ICU argument collection for its message yields exactly
`["name"]`; under the manifest-only profile the untagged tree extracts to
nothing, and the same tree tagged `$types = ["manifest"]` extracts to
exactly the dot-rewritten key `"a_b"`. -/
theorem claim4_locale_extraction :
    handleI18NNamespace c4Tree (some ["main"]) none none false none =
      [("a.b", { context := none, message := some "Hello \x7bname\x7d" })] ∧
    collectMessageArgs "Hello \x7bname\x7d" = ["name"] ∧
    handleI18NNamespace c4Tree (some ["manifest"]) none none false none = [] ∧
    handleI18NNamespace c4TreeTagged (some ["manifest"]) none none false none =
      [("a_b", { context := none, message := some "Hello \x7bname\x7d" })] := by
  refine ⟨by decide, by decide, by decide, by decide⟩

/-- C5: for every start offset, target, version, mode and runtime parameters,
the DNR rule array carries consecutive, strictly increasing ids starting at
the static-rules offset, in emission order: one user-agent override rule per
simulated device profile, then the security-policy rule, then the
tracking-header append rule. -/
theorem claim5_dnr_rule_ids (startId : Nat) (target version : String) (isDev : Bool)
    (robloxVersion cspPolicy : String) :
    ((writeDNRRulesArray startId target version isDev robloxVersion cspPolicy).map (·.id) =
      List.range' startId ((getUserAgentOverrides robloxVersion).length + 2)) ∧
    ((writeDNRRulesArray startId target version isDev robloxVersion cspPolicy).map
      (·.id)).Pairwise (· < ·) ∧
    ((writeDNRRulesArray startId target version isDev robloxVersion cspPolicy).map ruleKind =
      List.replicate (getUserAgentOverrides robloxVersion).length RuleKind.uaOverride ++
        [RuleKind.securityPolicy, RuleKind.tracking]) := by
  refine ⟨?_, ?_, ?_⟩
  · simp [writeDNRRulesArray, getUserAgentOverrides, List.range']
  · have h : ((writeDNRRulesArray startId target version isDev robloxVersion
        cspPolicy).map (·.id)) =
        List.range' startId ((getUserAgentOverrides robloxVersion).length + 2) := by
      simp [writeDNRRulesArray, getUserAgentOverrides, List.range']
    rw [h]
    exact List.pairwise_lt_range' _ _
  · simp [writeDNRRulesArray, getUserAgentOverrides, ruleKind]

/-- C6: the per-target orchestration settles all seven launched steps and
collects their outcomes (none is dropped when a sibling fails), succeeds
exactly when every step fulfilled, fails on any single rejection, and runs
the Safari project conversion exactly when the target base is apple and
every step succeeded. -/
theorem claim6_build_orchestration (tb : TargetBase) (s : BuildSteps) :
    (build tb s).settledOutcomes = buildTasks s ∧
    (buildTasks s).length = 7 ∧
    ((build tb s).result = .ok () ↔
      (buildTasks s).all SettledResult.isFulfilled = true) ∧
    ((build tb s).safariConversionRan = true ↔
      (tb = .apple ∧ (buildTasks s).all SettledResult.isFulfilled = true)) := by
  unfold build
  by_cases hall : (buildTasks s).all SettledResult.isFulfilled = true
  · rw [if_pos hall]
    refine ⟨rfl, rfl, ?_, ?_⟩
    · simp [hall]
    · simp [hall]
  · rw [if_neg hall]
    refine ⟨rfl, rfl, ?_, ?_⟩
    · simp [hall]
    · simp [hall]

/-- C7 counterexample: when the rebuild step fails, `handleChange` sends
nothing — the broadcast lives in a `.then` continuation that only runs on
fulfilment — refuting the claim that the typed notification reaches every
open connection whether the rebuild succeeded or failed. -/
theorem claim7_counterexample :
    handleChange (.error "Build failed with errors") (some "Reload") ["client1"] = [] :=
  rfl

/-- C7 (amended): after a rebuild that SUCCEEDS, the typed notification is
sent to every connection in the open-connection set; after a failed rebuild,
or when no notification type was supplied, nothing is sent. -/
theorem claim7_broadcast_on_success :
    (∀ (t : String) (conns : List String),
      handleChange (.ok ()) (some t) conns = conns.map fun c => (c, jsonTypeMessage t)) ∧
    (∀ (err t : String) (conns : List String),
      handleChange (.error err) (some t) conns = []) ∧
    (∀ (r : Except String Unit) (conns : List String), handleChange r none conns = []) :=
  ⟨fun _ _ => rfl, fun _ _ _ => rfl, fun r _ => by cases r <;> rfl⟩

/-- C8 counterexample: `transformManifest` is not idempotent — for a
Chromium production build of a source with `store_version = "1.0.0"`, the
first application folds the store version into `version`, and a second
application overwrites `version` with the now-cleared `store_version`,
changing the manifest again. -/
theorem claim8_counterexample :
    transformManifest
      { manifest := c8SourceManifest, targetBase := .chromium, isDev := false,
        devServers := none } = some c8OnceManifest ∧
    transformManifest
      { manifest := c8OnceManifest, targetBase := .chromium, isDev := false,
        devServers := none } ≠ some c8OnceManifest := by
  constructor
  · decide
  · decide

/-- C8 (amended): `transformManifest` is idempotent only on a restricted
domain — for Chromium-family production builds with no dev-server record,
of sources whose `store_version` and `version_name` are absent, the output
is a fixed point of the transform. -/
theorem claim8_idempotent_restricted (m out : Manifest)
    (hsv : m.store_version = none) (hvn : m.version_name = none)
    (h : transformManifest
      { manifest := m, targetBase := .chromium, isDev := false, devServers := none } =
      some out) :
    transformManifest
      { manifest := out, targetBase := .chromium, isDev := false, devServers := none } =
      some out := by
  unfold transformManifest at h
  simp only [bind, Option.bind_eq_some, Option.pure_def, Option.some.injEq] at h
  obtain ⟨m2, hW, m5, hF, hOut⟩ := h
  have hm2 := applyProdWARFilter_shape _ _ _ hW
  rw [tmFamilySpread_nonfirefox _ _ (by simp), Option.some.injEq] at hF
  subst hOut
  rw [tmApple_nonapple _ _ (by simp)]
  cases hb5 : m5.browser_specific_settings with
  | none =>
    rw [tmBSS_none _ _ _ hb5]
    apply transformManifest_chromium_fixpoint
    · rw [← hF, tmBetaName_eq, tmLocalhost_eq, hm2]
    · rfl
    · rw [← hF]
    · show m5.version = none
      rw [← hF, tmBetaName_eq, tmLocalhost_eq, hm2]
      exact hsv
    · show m5.version_name = none
      rw [← hF, tmBetaName_eq, tmLocalhost_eq, hm2]
      simp [hvn]
    · rw [← hF]
    · exact hb5
    · apply applyProdWARFilter_post _ m2 _ hW
      show m5.web_accessible_resources = m2.web_accessible_resources
      rw [← hF, tmBetaName_eq, tmLocalhost_eq, hm2]
  | some b =>
    rw [tmBSS_chromium_eq _ _ _ hb5]
    apply transformManifest_chromium_fixpoint
    · rw [← hF, tmBetaName_eq, tmLocalhost_eq, hm2]
    · rfl
    · rw [← hF]
    · show m5.version = none
      rw [← hF, tmBetaName_eq, tmLocalhost_eq, hm2]
      exact hsv
    · show m5.version_name = none
      rw [← hF, tmBetaName_eq, tmLocalhost_eq, hm2]
      simp [hvn]
    · rw [← hF]
    · rfl
    · apply applyProdWARFilter_post _ m2 _ hW
      show m5.web_accessible_resources = m2.web_accessible_resources
      rw [← hF, tmBetaName_eq, tmLocalhost_eq, hm2]

/-- C8 witness: the restricted idempotence applied to a concrete production
Chromium build. -/
theorem claim8_witness :
    transformManifest
      { manifest := c8PlainOut, targetBase := .chromium, isDev := false,
        devServers := none } = some c8PlainOut :=
  claim8_idempotent_restricted c8PlainManifest c8PlainOut (by decide) (by decide)
    (by decide)

/-- C9: for a Chromium-family transform of a source carrying a
`browser_specific_settings` block, the chrome settings' signing key reaches
the top-level `key` field only in development mode (a production build keeps
the source's own `key`), while in both modes `minimum_chrome_version` is set
from the chrome settings' `strict_min_version` and the settings block is
removed. -/
theorem claim9_chromium_settings_key (m : Manifest) (isDev : Bool)
    (ds : Option DevServersAvailable) (b : BSSBlock) (out : Manifest)
    (hb : m.browser_specific_settings = some b)
    (h : transformManifest
      { manifest := m, targetBase := .chromium, isDev := isDev, devServers := ds } =
      some out) :
    out.key = (if isDev then b.chrome.bind (·.key) else m.key) ∧
    out.minimum_chrome_version = b.chrome.bind (·.strict_min_version) ∧
    out.browser_specific_settings = none := by
  unfold transformManifest at h
  simp only [bind, Option.bind_eq_some, Option.pure_def, Option.some.injEq] at h
  obtain ⟨m2, hW, m5, hF, hOut⟩ := h
  have hm2 := applyProdWARFilter_shape _ _ _ hW
  rw [tmFamilySpread_nonfirefox _ _ (by simp), Option.some.injEq] at hF
  have hb5 : m5.browser_specific_settings = some b := by
    rw [← hF, tmBetaName_eq, tmLocalhost_eq, hm2]
    exact hb
  have hk5 : m5.key = m.key := by
    rw [← hF, tmBetaName_eq, tmLocalhost_eq, hm2]
  subst hOut
  rw [tmApple_nonapple _ _ (by simp), tmBSS_chromium_eq _ _ _ hb5]
  refine ⟨?_, rfl, rfl⟩
  by_cases hd : isDev
  · simp [hd]
  · simp [hd, hk5]

/-- C9 witness: the theorem applied to a concrete settings block, in both a
development and a production build. -/
theorem claim9_witness :
    c9DevOut.key = some "MIIBIjANBgkqh-KEYDATA" ∧
    c9DevOut.minimum_chrome_version = some "121.0" ∧
    c9DevOut.browser_specific_settings = none ∧
    c9ProdOut.key = none := by
  have hdev := claim9_chromium_settings_key c9Manifest true none c9Block c9DevOut
    (by decide) (by decide)
  have hprod := claim9_chromium_settings_key c9Manifest false none c9Block c9ProdOut
    (by decide) (by decide)
  exact ⟨hdev.1.trans (by decide), hdev.2.1.trans (by decide), hdev.2.2,
    hprod.1.trans (by decide)⟩

/-- C10: for the Gecko family, the output's `optional_permissions` is the
concatenation of the source's `optional_host_permissions` and
`optional_permissions`, and the `optional_host_permissions` key is absent
from the output — for every source manifest and build mode. -/
theorem claim10_gecko_optional_permissions (m : Manifest) (isDev : Bool)
    (ds : Option DevServersAvailable) (out : Manifest)
    (h : transformManifest
      { manifest := m, targetBase := .firefox, isDev := isDev, devServers := ds } =
      some out) :
    out.optional_permissions =
      some (m.optional_host_permissions.getD [] ++ m.optional_permissions.getD []) ∧
    out.optional_host_permissions = none := by
  obtain ⟨_, _, hoh, _, hop⟩ := transformManifest_firefox_fields m isDev ds out h
  exact ⟨hop, hoh⟩

/-- C10 witness: the theorem applied to a source carrying both optional
lists. -/
theorem claim10_witness :
    c10Out.optional_permissions =
      some ["*://apis.roblox.com/*", "cookies", "downloads"] ∧
    c10Out.optional_host_permissions = none := by
  have h := claim10_gecko_optional_permissions c10Manifest false none c10Out (by decide)
  exact ⟨h.1.trans (by decide), h.2⟩

end RBDb
